import Mathlib

/-!
Verification of the message-id correspondence map (`MessageMap`) of
TediCrossLite.  The development shallowly embeds the two source variants of
`MessageMap.ts` — the JSON-snapshot variant (`src/MessageMap.ts`) and the
CSV-append variant — and proves properties of the in-memory index, the expiry
timers, the persistence layer and the `safeTimeout` delay chaining.

JavaScript `Map` and `Set` preserve insertion order; they are modelled as
association lists: `assocGet` returns the first binding (`Map.get`),
`assocSet` replaces the first binding in place or appends a fresh binding at
the end (`Map.set`), `assocDelete` removes a binding (`Map.delete`), and
`setAdd` models `Set.add` (no-op when the element is present, append
otherwise).
-/

/-- The `Direction` type of `MessageMap.ts`: `"d2t" | "t2d"`. -/
inductive Direction where
  | d2t
  | t2d
deriving DecidableEq

/-- The string literal carried by a `Direction` value. -/
def dirStr : Direction → String
  | .d2t => "d2t"
  | .t2d => "t2d"

/-- A JavaScript `Set<string>` in insertion order. -/
abbrev IdSet := List String

/-- A per-bridge `Map<string, Set<string>>` from entry keys to target ids. -/
abbrev KeyMap := List (String × IdSet)

/-- The outer `Map<string, Map<string, Set<string>>>` keyed by bridge name. -/
abbrev BridgeMap := List (String × KeyMap)

/-- `Map.get`: the binding of a key, `none` when absent. -/
def assocGet {α : Type} : List (String × α) → String → Option α
  | [], _ => none
  | p :: rest, k => if p.1 = k then some p.2 else assocGet rest k

/-- `Map.set`: replace the binding of the key in place, or append a new one. -/
def assocSet {α : Type} : List (String × α) → String → α → List (String × α)
  | [], k, v => [(k, v)]
  | p :: rest, k, v => if p.1 = k then (k, v) :: rest else p :: assocSet rest k v

/-- `Map.delete`: remove the binding of the key. -/
def assocDelete {α : Type} (m : List (String × α)) (k : String) : List (String × α) :=
  m.filter (fun p => p.1 ≠ k)

/-- `Set.add`: append when absent, no-op when already present. -/
def setAdd (s : IdSet) (x : String) : IdSet :=
  if x ∈ s then s else s ++ [x]

/-- Helper for `jsSplit`: split a character list at every occurrence of the
separator, keeping empty fragments, with the current fragment accumulated in
reverse. -/
def splitCharsAux (sep : Char) : List Char → List Char → List (List Char)
  | [], acc => [acc.reverse]
  | c :: rest, acc =>
    if c = sep then acc.reverse :: splitCharsAux sep rest []
    else splitCharsAux sep rest (c :: acc)

/-- JavaScript `String.prototype.split` with a single-character separator
(the only form the source uses: `" "`, `","`, `"\n"`): every occurrence of
the separator cuts, empty fragments are kept, and splitting the empty string
yields `[""]`. -/
def jsSplit (s : String) (sep : Char) : List String :=
  (splitCharsAux sep s.data []).map String.mk

/-- JavaScript `String.prototype.trim`: strip whitespace from both ends. -/
def jsTrim (s : String) : String :=
  String.mk (((s.data.dropWhile Char.isWhitespace).reverse.dropWhile Char.isWhitespace).reverse)

/-- The entry key computed by `insert`: the template literal
`` `${direction} ${fromId}` ``. -/
def makeKey (d : Direction) (fromId : String) : String :=
  dirStr d ++ " " ++ fromId

namespace MessageMap

/-- In-memory effect of `MessageMap.insert` (`src/MessageMap.ts`, lines
77–102): get or create the per-bridge sub-map, get or create the target-id
set under the key `` `${direction} ${fromId}` ``, and add `toId` to it. -/
def insert (idx : BridgeMap) (d : Direction) (bridgeName fromId toId : String) : BridgeMap :=
  let keyToIdsMap := (assocGet idx bridgeName).getD []
  let key := makeKey d fromId
  let toIds := (assocGet keyToIdsMap key).getD []
  assocSet idx bridgeName (assocSet keyToIdsMap key (setAdd toIds toId))

/-- `MessageMap.getCorresponding` (lines 121–139): look the key up under the
bridge and spread the set into an array, `[]` on any miss. -/
def getCorresponding (idx : BridgeMap) (d : Direction) (bridgeName fromId : String) :
    List String :=
  ((assocGet idx bridgeName).bind (fun km => assocGet km (makeKey d fromId))).getD []

/-- `MessageMap.getCorrespondingReverse` (lines 141–163): scan the bridge's
sub-map for the first key whose id set contains `toId`; on a find, split the
key on spaces and drop the leading direction token (`fromId.shift()`); the
`?? "0"` fallback together with the `key !== "0"` guard yields `[]` when
nothing matches. -/
def getCorrespondingReverse (idx : BridgeMap) (bridgeName toId : String) : List String :=
  match assocGet idx bridgeName with
  | none => []
  | some keyToIdsMap =>
    match keyToIdsMap.find? (fun p => decide (toId ∈ p.2)) with
    | none => []
    | some p => if p.1 = "0" then [] else (jsSplit p.1 ' ').tail

end MessageMap

/-- `convertFromMap`'s inner loop (`src/MessageMap.ts`, lines 30–34): for each
inner key a *fresh* one-entry object is built and assigned to `dict[key]`,
overwriting the previous assignment, so only the last inner key survives. -/
def convertFromMapEntry (km : KeyMap) : KeyMap :=
  km.foldl (fun _ p => [(p.1, p.2)]) []

/-- `convertFromMap` (lines 26–37): serialize the nested map to the plain
dictionary written to the snapshot file (`Array.from` of a set is the set's
elements in insertion order). -/
def convertFromMap (m : BridgeMap) : BridgeMap :=
  m.map (fun p => (p.1, convertFromMapEntry p.2))

/-- `new Set(array)`: deduplicate, keeping first occurrences in order. -/
def listToSet (l : List String) : IdSet :=
  l.foldl setAdd []

/-- `convertToMap` (lines 13–24): deserialize the dictionary read from the
snapshot file back into the nested map, re-interpreting inner arrays as sets. -/
def convertToMap (d : BridgeMap) : BridgeMap :=
  d.map (fun p => (p.1, p.2.map (fun q => (q.1, listToSet q.2))))

/-- State of a JSON-variant instance with persistence enabled: the in-memory
index together with the parsed content of `persistentMessageMap.db`
(`JSON.stringify`/`JSON.parse` are mutually inverse on these nested
dictionaries, so the file is modelled by its parsed form). -/
structure JsonPState where
  index : BridgeMap
  file : BridgeMap

namespace MessageMap

/-- `MessageMap.insert` of the JSON variant with persistence enabled: the
method body (lines 77–102) updates only the in-memory map and schedules the
expiry; it never touches the snapshot file (`dump` is a separate method that
insert does not call). -/
def insertP (s : JsonPState) (d : Direction) (bridgeName fromId toId : String) : JsonPState :=
  { index := insert s.index d bridgeName fromId toId, file := s.file }

/-- `MessageMap.dump` (lines 104–110): when a db path is set, serialize the
whole index with `convertFromMap` and overwrite the snapshot file. -/
def dump (s : JsonPState) : JsonPState :=
  { index := s.index, file := convertFromMap s.index }

/-- Fold a list of `(direction, bridgeName, fromId, toId)` insert calls over
the empty index. -/
def applyInserts (ops : List (Direction × String × String × String)) : BridgeMap :=
  ops.foldl (fun m op => insert m op.1 op.2.1 op.2.2.1 op.2.2.2) []

end MessageMap

/-- One pending expiry scheduled by `insert`: the deadline plus the bridge
sub-map and entry key captured by the `safeTimeout` closure. -/
structure TimerEntry where
  fireAt : Nat
  bridgeName : String
  key : String

/-- A `MessageMap` instance together with its pending expiry timers. -/
structure TimedState where
  index : BridgeMap
  timers : List TimerEntry

/-- `insert` viewed with its timer side effect (lines 96–101): the index is
updated and exactly one expiry for the entry key is scheduled, with deadline
`now + timeoutMs` where `timeoutMs` is
`moment.duration(amount, unit).asMilliseconds()`; no existing timer is
touched. -/
def insertTimed (s : TimedState) (now timeoutMs : Nat) (d : Direction)
    (bridgeName fromId toId : String) : TimedState :=
  { index := MessageMap.insert s.index d bridgeName fromId toId,
    timers := s.timers ++ [{ fireAt := now + timeoutMs,
                             bridgeName := bridgeName,
                             key := makeKey d fromId }] }

/-- The expiry callback (lines 97–100): `keyToIdsMap.delete(key)` on the
captured sub-map, unconditionally.  Sub-maps are created once per bridge and
never replaced, so the captured reference is the bridge's current sub-map. -/
def fireExpiry (idx : BridgeMap) (bridgeName key : String) : BridgeMap :=
  match assocGet idx bridgeName with
  | none => idx
  | some km => assocSet idx bridgeName (assocDelete km key)

/-- `MAX_32_BIT = 0x7fffffff` (line 11). -/
def MAX_32_BIT : Nat := 0x7fffffff

/-- The chain of waits produced by `safeTimeout` (lines 177–188): each
`setTimeout` waits `Math.min(MAX_32_BIT, delay)`; when `delay > MAX_32_BIT`
the callback reschedules with `delay - MAX_32_BIT`, otherwise it invokes
`onTimeout`. -/
def safeTimeoutWaits (delay : Nat) : List Nat :=
  if _h : MAX_32_BIT < delay then
    min MAX_32_BIT delay :: safeTimeoutWaits (delay - MAX_32_BIT)
  else
    [min MAX_32_BIT delay]
decreasing_by
  simp only [MAX_32_BIT] at *
  omega

/-- The content found in the snapshot file by the JSON variant's constructor,
classified by how `JSON.parse` (a platform primitive, modelled abstractly)
treats it: a missing file is created and read back empty, so it coincides
with empty content; `wellFormed d` is content that parses to the dictionary
`d`; `malformed` is content on which `JSON.parse` throws. -/
inductive Payload where
  | empty
  | wellFormed (d : BridgeMap)
  | malformed

/-- The constructor's load path with persistence enabled
(`src/MessageMap.ts`, lines 55–66): `JSON.parse(content || "{}")` followed by
`convertToMap`.  Empty content falls back to the empty dictionary; a parse
error propagates out of the constructor (there is no try/catch around it). -/
def constructorLoad : Payload → Except Unit BridgeMap
  | .empty => .ok (convertToMap [])
  | .wellFormed d => .ok (convertToMap d)
  | .malformed => .error ()

namespace Csv

/-- In-memory effect of the CSV variant's `MessageMap.insert` (the unnamed
source file, lines 84–101): identical map manipulation to the JSON variant. -/
def insert (idx : BridgeMap) (d : Direction) (bridgeName fromId toId : String) : BridgeMap :=
  let keyToIdsMap := (assocGet idx bridgeName).getD []
  let key := makeKey d fromId
  let toIds := (assocGet keyToIdsMap key).getD []
  assocSet idx bridgeName (assocSet keyToIdsMap key (setAdd toIds toId))

/-- The CSV variant's `MessageMap.getCorresponding` (lines 138–156). -/
def getCorresponding (idx : BridgeMap) (d : Direction) (bridgeName fromId : String) :
    List String :=
  ((assocGet idx bridgeName).bind (fun km => assocGet km (makeKey d fromId))).getD []

/-- The CSV variant's `MessageMap.getCorrespondingReverse` (lines 158–180). -/
def getCorrespondingReverse (idx : BridgeMap) (bridgeName toId : String) : List String :=
  match assocGet idx bridgeName with
  | none => []
  | some keyToIdsMap =>
    match keyToIdsMap.find? (fun p => decide (toId ∈ p.2)) with
    | none => []
    | some p => if p.1 = "0" then [] else (jsSplit p.1 ' ').tail

/-- Fold a list of `(direction, bridgeName, fromId, toId)` insert calls over
the empty index, CSV variant. -/
def applyInserts (ops : List (Direction × String × String × String)) : BridgeMap :=
  ops.foldl (fun m op => insert m op.1 op.2.1 op.2.2.1 op.2.2.2) []

/-- The CSV line written by the CSV variant's `insert` (lines 103–119,
without the trailing newline): `t2d` writes `bridge,fromId,>,toId`, `d2t`
writes `bridge,toId,<,fromId`.  `Direction` has no further values, so the
`logger.error` branch is unreachable. -/
def csvLine (d : Direction) (bridgeName fromId toId : String) : String :=
  match d with
  | .t2d => bridgeName ++ "," ++ fromId ++ ",>," ++ toId
  | .d2t => bridgeName ++ "," ++ toId ++ ",<," ++ fromId

/-- State of a CSV-variant instance with persistence enabled: the in-memory
index plus the appended lines of the db file. -/
structure PState where
  index : BridgeMap
  file : List String

/-- The CSV variant's `insert` with its file side effect: update the index
and append exactly one line to the file. -/
def insertP (s : PState) (d : Direction) (bridgeName fromId toId : String) : PState :=
  { index := insert s.index d bridgeName fromId toId,
    file := s.file ++ [csvLine d bridgeName fromId toId] }

/-- `digRow` (lines 12–19): add `value` under `keys = [bridgeName, secondKey]`,
creating the nested containers as needed. -/
def digRow (m : BridgeMap) (bridgeName secondKey value : String) : BridgeMap :=
  let bridge := (assocGet m bridgeName).getD []
  let exchange := (assocGet bridge secondKey).getD []
  assocSet m bridgeName (assocSet bridge secondKey (setAdd exchange value))

/-- One line of `loadFile` (lines 25–41): lines with fewer than four
comma-separated columns are skipped; `>` and `<` select the key layout; any
other third column leaves `secondKey` and `value` as empty strings, which are
still dug into the map. -/
def loadLine (m : BridgeMap) (line : String) : BridgeMap :=
  let cols := jsSplit line ','
  if cols.length < 4 then m
  else
    let c0 := cols.getD 0 ""
    let c1 := cols.getD 1 ""
    let c2 := cols.getD 2 ""
    let c3 := cols.getD 3 ""
    if c2 = ">" then digRow m c0 ("t2d " ++ jsTrim c1) (jsTrim c3)
    else if c2 = "<" then digRow m c0 ("d2t " ++ jsTrim c3) (jsTrim c1)
    else digRow m c0 "" ""

/-- `loadFile` (lines 21–44): split the file content on newlines and dig
every recognized row into a fresh map.  Total: no content makes it throw. -/
def loadFile (content : String) : BridgeMap :=
  (jsSplit content '\n').foldl loadLine []

end Csv

/-! ### Helper lemmas about the `Map`/`Set` model -/

theorem assocGet_set_self {α : Type} (m : List (String × α)) (k : String) (v : α) :
    assocGet (assocSet m k v) k = some v := by
  induction m with
  | nil => simp [assocSet, assocGet]
  | cons p rest ih =>
    by_cases h : p.1 = k
    · simp [assocSet, h, assocGet]
    · simp [assocSet, h, assocGet, ih]

theorem assocGet_delete {α : Type} (m : List (String × α)) (k : String) :
    assocGet (assocDelete m k) k = none := by
  induction m with
  | nil => rfl
  | cons p rest ih =>
    by_cases h : p.1 = k
    · simpa [assocDelete, List.filter_cons, h] using ih
    · simpa [assocDelete, List.filter_cons, h, assocGet] using ih

theorem mem_setAdd {s : IdSet} {x t : String} : x ∈ setAdd s t ↔ x ∈ s ∨ x = t := by
  unfold setAdd
  by_cases h : t ∈ s
  · simp only [if_pos h]
    constructor
    · exact Or.inl
    · rintro (hx | rfl)
      · exact hx
      · exact h
  · simp [if_neg h]

theorem mem_setAdd_self (s : IdSet) (t : String) : t ∈ setAdd s t :=
  mem_setAdd.mpr (Or.inr rfl)

theorem setAdd_of_mem {s : IdSet} {t : String} (h : t ∈ s) : setAdd s t = s := by
  simp [setAdd, h]

theorem getCorresponding_insert (idx : BridgeMap) (d : Direction) (b f t : String) :
    MessageMap.getCorresponding (MessageMap.insert idx d b f t) d b f
      = setAdd (MessageMap.getCorresponding idx d b f) t := by
  unfold MessageMap.insert MessageMap.getCorresponding
  cases hb : assocGet idx b with
  | none => simp [hb, assocGet_set_self, assocGet]
  | some km =>
    cases hk : assocGet km (makeKey d f) with
    | none => simp [hb, hk, assocGet_set_self]
    | some s => simp [hb, hk, assocGet_set_self]

theorem find?_assocSet_fresh (km : KeyMap) (key : String) (s : IdSet) (t : String)
    (hfresh : ∀ p ∈ km, t ∉ p.2) (ht : t ∈ s) :
    (assocSet km key s).find? (fun p => decide (t ∈ p.2)) = some (key, s) := by
  induction km with
  | nil => simp [assocSet, List.find?, ht]
  | cons p rest ih =>
    by_cases h : p.1 = key
    · simp [assocSet, h, List.find?, ht]
    · have hp : t ∉ p.2 := hfresh p (List.mem_cons_self p rest)
      have hd : decide (t ∈ p.2) = false := by simpa using hp
      simp only [assocSet, if_neg h, List.find?, hd]
      exact ih (fun q hq => hfresh q (List.mem_cons_of_mem p hq))

theorem reverse_eq_nil_of_no_match (idx : BridgeMap) (b t : String)
    (h : ∀ p ∈ (assocGet idx b).getD [], t ∉ p.2) :
    MessageMap.getCorrespondingReverse idx b t = [] := by
  unfold MessageMap.getCorrespondingReverse
  cases hb : assocGet idx b with
  | none => rfl
  | some km =>
    rw [hb] at h
    have hnone : km.find? (fun p => decide (t ∈ p.2)) = none := by
      rw [List.find?_eq_none]
      intro p hp
      simpa using h p hp
    simp [hnone]

/-! ### Claims -/

/-- C1: for every direction, bridge, fromId and toId, after
`insert(direction, bridge, fromId, toId)` and before the entry's expiry
fires, `getCorresponding(direction, bridge, fromId)` contains `toId`; and
concretely, after `insert("t2d", bridgeX, "111", "222")`,
`getCorresponding("t2d", bridgeX, "111") = ["222"]` while
`getCorresponding("d2t", bridgeX, "111") = []`. -/
theorem insert_getCorresponding_contains :
    (∀ (idx : BridgeMap) (d : Direction) (b f t : String),
      t ∈ MessageMap.getCorresponding (MessageMap.insert idx d b f t) d b f) ∧
    MessageMap.getCorresponding
      (MessageMap.insert [] .t2d "bridgeX" "111" "222") .t2d "bridgeX" "111" = ["222"] ∧
    MessageMap.getCorresponding
      (MessageMap.insert [] .t2d "bridgeX" "111" "222") .d2t "bridgeX" "111" = [] := by
  refine ⟨fun idx d b f t => ?_, by rfl, by rfl⟩
  rw [getCorresponding_insert]
  exact mem_setAdd_self _ _

/-- C2: every insert schedules exactly one expiry at insertion time, with
deadline `now + timeoutMs`, appended after all already-pending timers (so a
re-insert neither cancels nor extends the earlier timer of its key, which
still fires at the first insert's deadline); a firing expiry deletes the
whole entry key from the bridge's sub-map unconditionally, whatever the
index holds by then; and after the expiry fires, `getCorresponding` for that
key returns the empty sequence. -/
theorem insert_schedules_one_expiry_and_fire_empties :
    (∀ (s : TimedState) (now timeoutMs : Nat) (d : Direction) (b f t : String),
      (insertTimed s now timeoutMs d b f t).timers
          = s.timers ++ [{ fireAt := now + timeoutMs, bridgeName := b, key := makeKey d f }] ∧
      (insertTimed s now timeoutMs d b f t).index = MessageMap.insert s.index d b f t) ∧
    (∀ (idx : BridgeMap) (b k : String) (km : KeyMap), assocGet idx b = some km →
      assocGet (fireExpiry idx b k) b = some (assocDelete km k)) ∧
    (∀ (idx : BridgeMap) (b k : String) (d : Direction) (f : String),
      makeKey d f = k →
      MessageMap.getCorresponding (fireExpiry idx b k) d b f = []) := by
  refine ⟨fun s now timeoutMs d b f t => ⟨rfl, rfl⟩, ?_, ?_⟩
  · intro idx b k km hb
    simp [fireExpiry, hb, assocGet_set_self]
  · intro idx b k d f hk
    unfold fireExpiry
    cases hb : assocGet idx b with
    | none => simp [MessageMap.getCorresponding, hb]
    | some km =>
      simp [MessageMap.getCorresponding, assocGet_set_self, hk, assocGet_delete]

/-- Witness for C2 at a concrete state. -/
theorem insert_schedules_one_expiry_and_fire_empties_witness :
    (assocGet [("b", [("t2d 1", ["x"])])] "b" = some [("t2d 1", ["x"])] ∧
      assocGet (fireExpiry [("b", [("t2d 1", ["x"])])] "b" "t2d 1") "b"
        = some (assocDelete [("t2d 1", ["x"])] "t2d 1")) ∧
    (makeKey .t2d "1" = "t2d 1" ∧
      MessageMap.getCorresponding
        (fireExpiry [("b", [("t2d 1", ["x"])])] "b" "t2d 1") .t2d "b" "1" = []) :=
  ⟨⟨rfl, insert_schedules_one_expiry_and_fire_empties.2.1
      [("b", [("t2d 1", ["x"])])] "b" "t2d 1" [("t2d 1", ["x"])] rfl⟩,
   ⟨rfl, insert_schedules_one_expiry_and_fire_empties.2.2
      [("b", [("t2d 1", ["x"])])] "b" "t2d 1" .t2d "1" rfl⟩⟩

/-- C3: evaluation of the snapshot round-trip at the failing input: after two
inserts with distinct entry keys under one bridge, serializing with
`convertFromMap` and re-reading with `convertToMap` loses the first key, so
the fresh instance answers `[]` where the original answers `["a"]`. -/
theorem roundTrip_drops_all_but_last_key :
    MessageMap.getCorresponding
      (convertToMap (convertFromMap
        (MessageMap.insert (MessageMap.insert [] .t2d "b" "1" "a") .t2d "b" "2" "c")))
      .t2d "b" "1" = [] ∧
    MessageMap.getCorresponding
      (MessageMap.insert (MessageMap.insert [] .t2d "b" "1" "a") .t2d "b" "2" "c")
      .t2d "b" "1" = ["a"] :=
  ⟨by decide, by decide⟩

/-- C4 counterexample: with `fromId = "a b"` (a space inside the id) the
reverse lookup returns `["a", "b"]`, not the single-element `["a b"]`; and
when `toId = "x"` already occurs under another key of the bridge, the reverse
lookup right after `insert("t2d", bridgeX, "2", "x")` returns the *first*
matching key's origin `["1"]`, not `["2"]`. -/
theorem getCorrespondingReverse_not_single_fromId :
    MessageMap.getCorrespondingReverse
        (MessageMap.insert [] .t2d "bridgeX" "a b" "222") "bridgeX" "222" ≠ ["a b"] ∧
    MessageMap.getCorrespondingReverse
        (MessageMap.insert (MessageMap.insert [] .t2d "bridgeX" "1" "x") .t2d "bridgeX" "2" "x")
        "bridgeX" "x" ≠ ["2"] :=
  ⟨by decide, by decide⟩

/-- C4 (amended): after `insert(direction, bridge, fromId, toId)` and before
expiry, `getCorrespondingReverse(bridge, toId)` returns exactly `[fromId]`
provided the entry key splits on spaces into exactly the direction token and
`fromId` (i.e. `fromId` contains no space) and no other entry of that bridge
already contains `toId`; on no match it returns the empty sequence. -/
theorem getCorrespondingReverse_after_insert :
    (∀ (idx : BridgeMap) (d : Direction) (b f t : String),
      jsSplit (makeKey d f) ' ' = [dirStr d, f] →
      (∀ p ∈ (assocGet idx b).getD [], t ∉ p.2) →
      MessageMap.getCorrespondingReverse (MessageMap.insert idx d b f t) b t = [f]) ∧
    (∀ (idx : BridgeMap) (b t : String),
      (∀ p ∈ (assocGet idx b).getD [], t ∉ p.2) →
      MessageMap.getCorrespondingReverse idx b t = []) := by
  constructor
  · intro idx d b f t hkey hfresh
    have hkey0 : ¬ makeKey d f = "0" := by
      intro h0
      rw [h0] at hkey
      have h1 : jsSplit "0" ' ' = ["0"] := by decide
      rw [h1] at hkey
      simp at hkey
    have hfind := find?_assocSet_fresh ((assocGet idx b).getD []) (makeKey d f)
      (setAdd ((assocGet ((assocGet idx b).getD []) (makeKey d f)).getD []) t) t hfresh
      (mem_setAdd_self _ t)
    simp only [MessageMap.insert, MessageMap.getCorrespondingReverse, assocGet_set_self,
      hfind, if_neg hkey0, hkey, List.tail_cons]
  · exact reverse_eq_nil_of_no_match

/-- Witness for C4 at the spec's concrete scenario. -/
theorem getCorrespondingReverse_after_insert_witness :
    jsSplit (makeKey .t2d "111") ' ' = [dirStr .t2d, "111"] ∧
    (∀ p ∈ (assocGet ([] : BridgeMap) "bridgeX").getD [], "222" ∉ p.2) ∧
    MessageMap.getCorrespondingReverse
      (MessageMap.insert [] .t2d "bridgeX" "111" "222") "bridgeX" "222" = ["111"] :=
  ⟨by decide, by simp [assocGet],
   getCorrespondingReverse_after_insert.1 [] .t2d "bridgeX" "111" "222"
     (by decide) (by simp [assocGet])⟩

/-- C5: re-inserting under the same `(direction, bridge, fromId)` merges into
the existing target-id set: from a state where the key is fresh, inserting
`toA` then `toB` makes `getCorresponding` hold exactly the ids `toA` and
`toB` (order-independent membership), and inserting an already-present id
leaves the result of `getCorresponding` unchanged. -/
theorem insert_merges :
    (∀ (idx : BridgeMap) (d : Direction) (b f toA toB : String),
      MessageMap.getCorresponding idx d b f = [] →
      ∀ x, x ∈ MessageMap.getCorresponding
              (MessageMap.insert (MessageMap.insert idx d b f toA) d b f toB) d b f
            ↔ (x = toA ∨ x = toB)) ∧
    (∀ (idx : BridgeMap) (d : Direction) (b f t : String),
      t ∈ MessageMap.getCorresponding idx d b f →
      MessageMap.getCorresponding (MessageMap.insert idx d b f t) d b f
        = MessageMap.getCorresponding idx d b f) := by
  constructor
  · intro idx d b f toA toB h0 x
    rw [getCorresponding_insert, getCorresponding_insert, h0]
    simp [mem_setAdd]
  · intro idx d b f t ht
    rw [getCorresponding_insert, setAdd_of_mem ht]

/-- Witness for C5 at concrete states. -/
theorem insert_merges_witness :
    (MessageMap.getCorresponding [] .t2d "X" "1" = [] ∧
      ("b" ∈ MessageMap.getCorresponding
          (MessageMap.insert (MessageMap.insert [] .t2d "X" "1" "a") .t2d "X" "1" "b")
          .t2d "X" "1"
        ↔ ("b" = "a" ∨ "b" = "b"))) ∧
    ("a" ∈ MessageMap.getCorresponding [("X", [("t2d 1", ["a"])])] .t2d "X" "1" ∧
      MessageMap.getCorresponding
          (MessageMap.insert [("X", [("t2d 1", ["a"])])] .t2d "X" "1" "a") .t2d "X" "1"
        = MessageMap.getCorresponding [("X", [("t2d 1", ["a"])])] .t2d "X" "1") :=
  ⟨⟨rfl, insert_merges.1 [] .t2d "X" "1" "a" "b" rfl "b"⟩,
   ⟨by decide, insert_merges.2 [("X", [("t2d 1", ["a"])])] .t2d "X" "1" "a" (by decide)⟩⟩

/-- C6: the two lookups never raise and yield `[]` on every internal miss:
a bridge never inserted yields `[]` for both lookups, a missing entry key
yields `[]` for the forward lookup, a `toId` contained in no target set
yields `[]` for the reverse lookup, and a found key equal to the `"0"`
sentinel also yields `[]`. -/
theorem lookups_fail_soft :
    (∀ (idx : BridgeMap) (d : Direction) (b f : String), assocGet idx b = none →
      MessageMap.getCorresponding idx d b f = []) ∧
    (∀ (idx : BridgeMap) (b t : String), assocGet idx b = none →
      MessageMap.getCorrespondingReverse idx b t = []) ∧
    (∀ (idx : BridgeMap) (d : Direction) (b f : String) (km : KeyMap),
      assocGet idx b = some km → assocGet km (makeKey d f) = none →
      MessageMap.getCorresponding idx d b f = []) ∧
    (∀ (idx : BridgeMap) (b t : String),
      (∀ p ∈ (assocGet idx b).getD [], t ∉ p.2) →
      MessageMap.getCorrespondingReverse idx b t = []) ∧
    (∀ (idx : BridgeMap) (b t : String) (km : KeyMap) (s : IdSet),
      assocGet idx b = some km →
      km.find? (fun p => decide (t ∈ p.2)) = some ("0", s) →
      MessageMap.getCorrespondingReverse idx b t = []) := by
  refine ⟨?_, ?_, ?_, reverse_eq_nil_of_no_match, ?_⟩
  · intro idx d b f hb
    simp [MessageMap.getCorresponding, hb]
  · intro idx b t hb
    simp [MessageMap.getCorrespondingReverse, hb]
  · intro idx d b f km hb hk
    simp [MessageMap.getCorresponding, hb, hk]
  · intro idx b t km s hb hf
    simp [MessageMap.getCorrespondingReverse, hb, hf]

/-- Witness for C6 on a never-inserted bridge. -/
theorem lookups_fail_soft_witness :
    (assocGet ([] : BridgeMap) "never" = none ∧
      MessageMap.getCorresponding [] .t2d "never" "1" = []) ∧
    MessageMap.getCorrespondingReverse [] "never" "1" = [] :=
  ⟨⟨rfl, lookups_fail_soft.1 [] .t2d "never" "1" rfl⟩,
   lookups_fail_soft.2.1 [] "never" "1" rfl⟩

/-- C7: the `safeTimeout` chaining terminates (the chain of waits is a total
function of the requested delay), every single wait fits below
`MAX_32_BIT`, and the waits sum to exactly the requested delay — not just
the first chunk. -/
theorem safeTimeout_waits_sum (delay : Nat) :
    (safeTimeoutWaits delay).sum = delay ∧
    ((safeTimeoutWaits delay).all (fun w => decide (w ≤ MAX_32_BIT))) = true := by
  induction delay using safeTimeoutWaits.induct with
  | case1 d h ih =>
    rw [safeTimeoutWaits, dif_pos h]
    have hmin : min MAX_32_BIT d = MAX_32_BIT := Nat.min_eq_left h.le
    constructor
    · rw [List.sum_cons, ih.1, hmin]
      omega
    · rw [List.all_cons, hmin, ih.2]
      simp
  | case2 d h =>
    rw [safeTimeoutWaits, dif_neg h]
    have hmin : min MAX_32_BIT d = d := Nat.min_eq_right (Nat.le_of_not_lt h)
    constructor
    · simp [hmin]
    · rw [hmin]
      simp only [List.all_cons, List.all_nil, Bool.and_true, decide_eq_true_eq]
      omega

/-- C8 counterexample: with persistence enabled, the JSON variant's `insert`
does not touch the snapshot file: after one insert on a fresh instance the
file does not reflect the serialized index. -/
theorem insert_does_not_write_snapshot :
    (MessageMap.insertP { index := [], file := [] } .t2d "b" "1" "2").file
      ≠ convertFromMap (MessageMap.insertP { index := [], file := [] } .t2d "b" "1" "2").index :=
  by decide

/-- C8 (amended): the JSON variant's `insert` leaves the snapshot file
unchanged — whole-index re-serialization happens only in the separate `dump`
method, which overwrites the file with `convertFromMap` of the index — while
the CSV variant's `insert` synchronously appends exactly one line encoding
just the new mapping. -/
theorem insert_persistence_effects :
    (∀ (s : JsonPState) (d : Direction) (b f t : String),
      (MessageMap.insertP s d b f t).file = s.file) ∧
    (∀ s : JsonPState, (MessageMap.dump s).file = convertFromMap s.index ∧
      (MessageMap.dump s).index = s.index) ∧
    (∀ (s : Csv.PState) (d : Direction) (b f t : String),
      (Csv.insertP s d b f t).file = s.file ++ [Csv.csvLine d b f t]) :=
  ⟨fun _ _ _ _ _ => rfl, fun _ => ⟨rfl, rfl⟩, fun _ _ _ _ _ => rfl⟩

/-- C9 counterexample: an unparsable snapshot payload does not give an empty
index — it makes the JSON variant's constructor fail, because the
`JSON.parse` error propagates; and the CSV loader turns a malformed
four-column line into a junk entry rather than an empty index. -/
theorem construction_not_fail_open :
    ¬ (constructorLoad Payload.malformed = Except.ok []) ∧
    Csv.loadFile "a,b,c,d" ≠ [] := by
  constructor
  · intro h
    simp [constructorLoad] at h
  · decide

/-- C9 (amended): construction with persistence enabled starts with an empty
index when the snapshot payload is missing or empty, and with the
deserialized dictionary when it parses; an unparsable payload makes the JSON
variant's construction fail with the parse error instead of failing open;
the CSV variant's loader skips lines with fewer than four comma-separated
columns. -/
theorem construction_load_behaviour :
    constructorLoad Payload.empty = Except.ok [] ∧
    (∀ d : BridgeMap, constructorLoad (Payload.wellFormed d) = Except.ok (convertToMap d)) ∧
    constructorLoad Payload.malformed = Except.error () ∧
    (∀ (m : BridgeMap) (line : String),
      (jsSplit line ',').length < 4 → Csv.loadLine m line = m) := by
  refine ⟨rfl, fun d => rfl, rfl, ?_⟩
  intro m line h
  simp only [Csv.loadLine]
  rw [if_pos h]

/-- Witness for C9 on a line with a single column. -/
theorem construction_load_behaviour_witness :
    (jsSplit "x" ',').length < 4 ∧ Csv.loadLine [] "x" = [] :=
  ⟨by decide, construction_load_behaviour.2.2.2 [] "x" (by decide)⟩

/-- C10: with persistence disabled the two source variants are
observationally equivalent on the in-memory index: every sequence of insert
calls applied to both from the empty index gives identical
`getCorresponding` and `getCorrespondingReverse` answers on both variants. -/
theorem variants_observationally_equivalent :
    ∀ (ops : List (Direction × String × String × String)) (d : Direction) (b f t : String),
      MessageMap.getCorresponding (MessageMap.applyInserts ops) d b f
          = Csv.getCorresponding (Csv.applyInserts ops) d b f ∧
      MessageMap.getCorrespondingReverse (MessageMap.applyInserts ops) b t
          = Csv.getCorrespondingReverse (Csv.applyInserts ops) b t :=
  fun _ _ _ _ _ => ⟨rfl, rfl⟩

